import Mathlib

/-!
Shallow embedding of `src/main.py` of the `stock-ai-briefs` repository.

Conventions of the embedding:
* Python floats are modelled as exact rationals (`ℚ`); machine integers as `ℤ`/`ℕ`.
* Calendar dates ("%Y-%m-%d" strings in the source) are modelled as day numbers (`ℤ`);
  lexicographic comparison of the date strings coincides with integer comparison of
  day numbers, which is what the SQL queries rely on.
* `random.uniform` / `random.randint` draws are modelled as free streams (`ℕ → ℚ`,
  `ℕ → ℤ`) passed in as parameters: one stream per distinct call site.
* `time.time()` and `datetime.now()` are passed in as explicit `now : ℚ` (epoch
  seconds) and `today : ℤ` (day number) parameters.
* The process-wide dict `CACHE` is modelled as a function
  `(symbol, period) → Option (data, insertedAt)` threaded through explicitly.
* The sqlite tables `prices` and `summaries` are modelled as lists of rows threaded
  through explicitly; `INSERT OR REPLACE` is a delete-of-the-matching-primary-key
  followed by an append.
-/

/-- One OHLCV row as produced by the fetcher / generator and stored per symbol
(`date, open, high, low, close, volume`).  `open` is a Lean keyword, hence `open_`. -/
structure DataRow where
  date : ℤ
  open_ : ℚ
  high : ℚ
  low : ℚ
  close : ℚ
  volume : ℤ
deriving DecidableEq, Repr

/-- A row of the sqlite `prices` table (primary key `(symbol, date)`), main.py lines 94-105. -/
structure PriceRow where
  symbol : String
  date : ℤ
  open_ : ℚ
  high : ℚ
  low : ℚ
  close : ℚ
  volume : ℤ
deriving DecidableEq, Repr

/-- The `Metrics` dataclass (main.py lines 80-87).  The source stores
`volatility = std(dailyReturns) * sqrt(252)`; since `sqrt 252` is irrational the
embedding stores the square of that value, `volatility_sq = 252 * variance`, which
determines `volatility` (both are `0` together, and the map `x ↦ x²` is strictly
monotone on the nonnegatives).  Every other field is the exact source value. -/
structure Metrics where
  returns : ℚ
  volatility_sq : ℚ
  max_drawdown : ℚ
  current_price : ℚ
  price_change : ℚ
  price_change_pct : ℚ
deriving DecidableEq, Repr

/-- Insertion step of a stable sort by an integer key (models SQL `ORDER BY date` and
pandas `sort_values('date')`). -/
def insertByKey {α : Type} (key : α → ℤ) (a : α) : List α → List α
  | [] => [a]
  | b :: l => if key a ≤ key b then a :: b :: l else b :: insertByKey key a l

/-- Sort a list ascending by an integer key. -/
def sortByKey {α : Type} (key : α → ℤ) : List α → List α
  | [] => []
  | a :: l => insertByKey key a (sortByKey key l)

theorem insertByKey_perm {α : Type} (key : α → ℤ) (a : α) (l : List α) :
    (insertByKey key a l).Perm (a :: l) := by
  induction l with
  | nil => simp [insertByKey]
  | cons b t ih =>
    unfold insertByKey
    split
    · exact List.Perm.refl _
    · exact (List.Perm.cons b ih).trans (List.Perm.swap a b t)

theorem sortByKey_perm {α : Type} (key : α → ℤ) (l : List α) :
    (sortByKey key l).Perm l := by
  induction l with
  | nil => simp [sortByKey]
  | cons a t ih =>
    exact (insertByKey_perm key a (sortByKey key t)).trans (List.Perm.cons a ih)

theorem insertByKey_pairwise {α : Type} (key : α → ℤ) (a : α) (l : List α)
    (h : l.Pairwise (fun x y => key x ≤ key y)) :
    (insertByKey key a l).Pairwise (fun x y => key x ≤ key y) := by
  induction l with
  | nil => simp [insertByKey]
  | cons b t ih =>
    unfold insertByKey
    split
    · refine List.Pairwise.cons ?_ h
      intro x hx
      rcases List.mem_cons.mp hx with rfl | hx
      · assumption
      · exact le_trans (by assumption) (List.rel_of_pairwise_cons h hx)
    · rcases h with _ | ⟨hb, ht⟩
      refine List.Pairwise.cons ?_ (ih ht)
      intro x hx
      have := (insertByKey_perm key a t).mem_iff.mp hx
      rcases List.mem_cons.mp this with rfl | hx'
      · omega
      · exact hb x hx'

theorem sortByKey_pairwise {α : Type} (key : α → ℤ) (l : List α) :
    (sortByKey key l).Pairwise (fun x y => key x ≤ key y) := by
  induction l with
  | nil => simp [sortByKey]
  | cons a t ih => exact insertByKey_pairwise key a _ ih

theorem sortByKey_eq_self {α : Type} (key : α → ℤ) (l : List α)
    (h : l.Pairwise (fun x y => key x ≤ key y)) : sortByKey key l = l := by
  induction l with
  | nil => rfl
  | cons a t ih =>
    rcases h with _ | ⟨ha, ht⟩
    rw [sortByKey, ih ht]
    cases t with
    | nil => rfl
    | cons b u =>
      rw [insertByKey, if_pos (ha b (List.mem_cons_self b u))]

/-- Population mean (as used inside `np.std`). -/
def mean (xs : List ℚ) : ℚ := xs.sum / xs.length

/-- `np.diff(closes) / closes[:-1]` (main.py line 155): the list of daily simple returns. -/
def dailyReturns (cs : List ℚ) : List ℚ :=
  (cs.zip cs.tail).map (fun p => (p.2 - p.1) / p.1)

/-- `np.cumprod` with a running accumulator. -/
def cumprodAux (acc : ℚ) : List ℚ → List ℚ
  | [] => []
  | x :: xs => (acc * x) :: cumprodAux (acc * x) xs

/-- `(1 + daily_returns).cumprod()` (main.py line 159). -/
def cumulativePath (cs : List ℚ) : List ℚ :=
  cumprodAux 1 ((dailyReturns cs).map (fun r => 1 + r))

/-- `np.maximum.accumulate` tail worker. -/
def runMaxAux (acc : ℚ) : List ℚ → List ℚ
  | [] => []
  | x :: xs => (max acc x) :: runMaxAux (max acc x) xs

/-- `np.maximum.accumulate` (main.py line 160): running maximum of a list. -/
def runMax : List ℚ → List ℚ
  | [] => []
  | x :: xs => x :: runMaxAux x xs

/-- `np.min` on a nonempty array (the `< 2`-bar guard makes the empty case unreachable). -/
def listMin : List ℚ → ℚ
  | [] => 0
  | x :: xs => xs.foldl min x

/-- Closes of the dataframe after `sort_values('date')` (main.py lines 148-149). -/
def sortedCloses (df : List DataRow) : List ℚ :=
  (sortByKey (fun r => r.date) df).map (fun r => r.close)

/-- `(closes[-1] - closes[0]) / closes[0]` (main.py line 152). -/
def totalReturn (cs : List ℚ) : ℚ := (cs.getLastD 0 - cs.headD 0) / cs.headD 0

/-- Square of `np.std(daily_returns) * np.sqrt(252)` (main.py line 156):
`252 *` population variance of the daily returns. -/
def volatilitySq (cs : List ℚ) : ℚ :=
  252 * mean ((dailyReturns cs).map (fun r => (r - mean (dailyReturns cs)) ^ 2))

/-- `(cumulative - running_max) / running_max` (main.py line 161). -/
def drawdownPath (cs : List ℚ) : List ℚ :=
  ((cumulativePath cs).zip (runMax (cumulativePath cs))).map
    (fun p => (p.1 - p.2) / p.2)

/-- `np.min(drawdown)` (main.py line 162). -/
def maxDrawdown (cs : List ℚ) : ℚ := listMin (drawdownPath cs)

/-- `closes[-2]`, reached only when `len(closes) > 1`. -/
def secondToLast (cs : List ℚ) : ℚ := cs.dropLast.getLastD 0

/-- `closes[-1] - closes[-2] if len(closes) > 1 else 0` (main.py line 166). -/
def priceChange (cs : List ℚ) : ℚ :=
  if 1 < cs.length then cs.getLastD 0 - secondToLast cs else 0

/-- `price_change / closes[-2] if len(closes) > 1 and closes[-2] != 0 else 0`
(main.py line 167) — the only guarded denominator of the function. -/
def priceChangePct (cs : List ℚ) : ℚ :=
  if 1 < cs.length ∧ secondToLast cs ≠ 0 then priceChange cs / secondToLast cs else 0

/-- `calculate_metrics` (main.py lines 142-176).  A series of fewer than 2 bars
returns the all-zero snapshot; otherwise the rows are sorted by date and the six
statistics are computed over the closes. -/
def calculate_metrics (df : List DataRow) : Metrics :=
  if df.length < 2 then ⟨0, 0, 0, 0, 0, 0⟩
  else
    ⟨totalReturn (sortedCloses df),
     volatilitySq (sortedCloses df),
     maxDrawdown (sortedCloses df),
     (sortedCloses df).getLastD 0,
     priceChange (sortedCloses df),
     priceChangePct (sortedCloses df)⟩

/-- All denominators of the unguarded divisions of `calculate_metrics` are nonzero:
`closes[0]` (total return, line 152), every element of `closes[:-1]` (daily returns,
line 155) and every element of `running_max` (drawdown, line 161).  The
`price_change_pct` denominator (line 167) is the only one the source guards. -/
def metricsDivisionsOK (df : List DataRow) : Bool :=
  if df.length < 2 then true
  else
    ((sortedCloses df).headD 0 != 0) &&
    (sortedCloses df).dropLast.all (fun x => x != 0) &&
    (runMax (cumulativePath (sortedCloses df))).all (fun x => x != 0)

/-- Shorthand for a bar whose irrelevant fields are zero; only `date` and `close`
feed any claim about `calculate_metrics`. -/
def bar (d : ℤ) (c : ℚ) : DataRow := ⟨d, 0, 0, 0, c, 0⟩

theorem sortedCloses_length (df : List DataRow) :
    (sortedCloses df).length = df.length := by
  simp [sortedCloses, (sortByKey_perm (fun r : DataRow => r.date) df).length_eq]

theorem headD_mem_dropLast (cs : List ℚ) (h : 2 ≤ cs.length) :
    cs.headD 0 ∈ cs.dropLast := by
  match cs, h with
  | a :: b :: t, _ => simp [List.dropLast]

/-- Claim C2 (counterexample): for closes `[100, 90, 95]` in chronological order,
`calculate_metrics` does NOT return `maxDrawdown = -0.10`: the cumulative-product
path `[0.9, 0.95]` is compared against its own running maximum `[0.9, 0.95]`, which
never contains the `1.0` starting point, so the initial drop is not seen. -/
theorem maxDrawdown_100_90_95_ne_neg_tenth :
    ¬ (calculate_metrics [bar 0 100, bar 1 90, bar 2 95]).max_drawdown = -(1/10) := by
  norm_num [calculate_metrics, sortedCloses, sortByKey, insertByKey, bar, maxDrawdown,
    drawdownPath, cumulativePath, dailyReturns, cumprodAux, runMax, runMaxAux, listMin]

/-- Claim C2 (amended): for the series with closes `[100, 90, 95]`,
`calculate_metrics` returns `maxDrawdown = 0`, because the drawdown path is the
cumulative product of `1 + r` starting from the first daily return and its running
maximum starts at that first cumulative value (`0.9`), not at `1.0`; relative to
that running maximum the path `[0.9, 0.95]` never declines. -/
theorem maxDrawdown_100_90_95_eq_zero :
    (calculate_metrics [bar 0 100, bar 1 90, bar 2 95]).max_drawdown = 0 := by
  norm_num [calculate_metrics, sortedCloses, sortByKey, insertByKey, bar, maxDrawdown,
    drawdownPath, cumulativePath, dailyReturns, cumprodAux, runMax, runMaxAux, listMin]

/-- Claim C4: every series of fewer than 2 bars (including the empty one) yields the
all-zero snapshot, and `calculate_metrics` is total (never an error). -/
theorem calculate_metrics_degenerate_all_zero (df : List DataRow)
    (h : df.length < 2) : calculate_metrics df = ⟨0, 0, 0, 0, 0, 0⟩ := by
  rw [calculate_metrics, if_pos h]

theorem calculate_metrics_degenerate_all_zero_witness :
    ([] : List DataRow).length < 2 ∧ calculate_metrics [] = ⟨0, 0, 0, 0, 0, 0⟩ :=
  ⟨by decide, calculate_metrics_degenerate_all_zero [] (by decide)⟩

/-- Claim C7: for the two-bar series with closes `[100, 110]`, `returns = 0.10`,
`priceChange = 10` and `priceChangePct = 0.10`; and for any series whose
second-to-last close (after the date sort) is exactly `0`, `priceChangePct` is `0`
rather than an error, because that denominator is the one the source guards. -/
theorem calculate_metrics_two_bar_and_zero_denom :
    ((calculate_metrics [bar 0 100, bar 1 110]).returns = 1/10
      ∧ (calculate_metrics [bar 0 100, bar 1 110]).price_change = 10
      ∧ (calculate_metrics [bar 0 100, bar 1 110]).price_change_pct = 1/10)
    ∧ ∀ df : List DataRow, 2 ≤ df.length → secondToLast (sortedCloses df) = 0 →
        (calculate_metrics df).price_change_pct = 0 := by
  constructor
  · refine ⟨?_, ?_, ?_⟩ <;>
      norm_num [calculate_metrics, sortedCloses, sortByKey, insertByKey, bar,
        totalReturn, priceChange, priceChangePct, secondToLast]
  · intro df hlen hz
    rw [calculate_metrics, if_neg (by omega)]
    simp [priceChangePct, hz]

theorem calculate_metrics_two_bar_and_zero_denom_witness :
    2 ≤ ([bar 0 0, bar 1 5] : List DataRow).length
      ∧ secondToLast (sortedCloses [bar 0 0, bar 1 5]) = 0
      ∧ (calculate_metrics [bar 0 0, bar 1 5]).price_change_pct = 0 :=
  ⟨by decide,
   by norm_num [sortedCloses, sortByKey, insertByKey, bar, secondToLast],
   calculate_metrics_two_bar_and_zero_denom.2 [bar 0 0, bar 1 5] (by decide)
     (by norm_num [sortedCloses, sortByKey, insertByKey, bar, secondToLast])⟩

/-- Claim C10 (counterexample): nonzeroness of every close except the last is NOT
sufficient for `calculate_metrics` to be free of division by zero on a series of
`≥ 2` bars: for closes `[100, 0]` every close except the last is nonzero, yet the
running maximum of the cumulative-return path is `[0]` and the drawdown step
(main.py line 161) divides by `0`. -/
theorem metricsDivisionsOK_dropLast_not_sufficient :
    2 ≤ ([bar 0 100, bar 1 0] : List DataRow).length
      ∧ (∀ x ∈ (sortedCloses [bar 0 100, bar 1 0]).dropLast, x ≠ 0)
      ∧ metricsDivisionsOK [bar 0 100, bar 1 0] = false := by
  refine ⟨by decide, ?_, ?_⟩ <;>
    norm_num [metricsDivisionsOK, sortedCloses, sortByKey, insertByKey, bar,
      cumulativePath, dailyReturns, cumprodAux, runMax, runMaxAux]

/-- Claim C10 (amended): on a series of `≥ 2` bars the unguarded divisions of
`calculate_metrics` have nonzero denominators exactly when every close except the
last is nonzero AND every running maximum of the cumulative-return path is nonzero
(the first close is among `closes[:-1]`, so its nonzeroness is subsumed); in
particular nonzeroness of every close except the last is necessary, but by the
counterexample `[100, 0]` not sufficient.  Only the `priceChangePct` denominator is
guarded in the source. -/
theorem metricsDivisionsOK_characterization (df : List DataRow)
    (h : 2 ≤ df.length) :
    (metricsDivisionsOK df = true ↔
      ((∀ x ∈ (sortedCloses df).dropLast, x ≠ 0)
        ∧ ∀ m ∈ runMax (cumulativePath (sortedCloses df)), m ≠ 0))
    ∧ (metricsDivisionsOK df = true → ∀ x ∈ (sortedCloses df).dropLast, x ≠ 0) := by
  have hcs : 2 ≤ (sortedCloses df).length := by rw [sortedCloses_length]; exact h
  have hiff : metricsDivisionsOK df = true ↔
      ((∀ x ∈ (sortedCloses df).dropLast, x ≠ 0)
        ∧ ∀ m ∈ runMax (cumulativePath (sortedCloses df)), m ≠ 0) := by
    rw [metricsDivisionsOK, if_neg (by omega)]
    simp only [Bool.and_eq_true, List.all_eq_true, bne_iff_ne, ne_eq]
    constructor
    · rintro ⟨⟨-, h2⟩, h3⟩
      exact ⟨fun x hx => h2 x hx, fun m hm => h3 m hm⟩
    · rintro ⟨h2, h3⟩
      exact ⟨⟨h2 _ (headD_mem_dropLast _ hcs), fun x hx => h2 x hx⟩,
        fun m hm => h3 m hm⟩
  exact ⟨hiff, fun hok => (hiff.mp hok).1⟩

theorem metricsDivisionsOK_characterization_witness :
    2 ≤ ([bar 0 100, bar 1 110] : List DataRow).length
      ∧ ((metricsDivisionsOK [bar 0 100, bar 1 110] = true ↔
          ((∀ x ∈ (sortedCloses [bar 0 100, bar 1 110]).dropLast, x ≠ 0)
            ∧ ∀ m ∈ runMax (cumulativePath (sortedCloses [bar 0 100, bar 1 110])), m ≠ 0))
        ∧ (metricsDivisionsOK [bar 0 100, bar 1 110] = true →
            ∀ x ∈ (sortedCloses [bar 0 100, bar 1 110]).dropLast, x ≠ 0)) :=
  ⟨by decide, metricsDivisionsOK_characterization [bar 0 100, bar 1 110] (by decide)⟩

/-- Python `round(x, 2)`: round to the nearest multiple of `1/100`.  (CPython breaks
ties to even; Mathlib's `round` breaks them upward.  Every property proved below is
insensitive to the tie-breaking rule, since it only uses that the result of a
round-to-nearest is `≥ c` whenever the input is `≥ c` for `c` a multiple of `1/100`.) -/
def round2 (x : ℚ) : ℚ := ((round (100 * x) : ℤ) : ℚ) / 100

theorem le_round2 (n : ℤ) (x : ℚ) (h : (n : ℚ) / 100 ≤ x) : (n : ℚ) / 100 ≤ round2 x := by
  have h100 : (n : ℚ) ≤ 100 * x := by
    rw [div_le_iff₀ (by norm_num : (0:ℚ) < 100)] at h
    linarith
  have hfloor : n ≤ round (100 * x) := by
    rw [round_eq]
    have : (n : ℚ) + 1/2 ≤ 100 * x + 1/2 := by linarith
    have hmono := Int.floor_mono this
    rwa [Int.floor_int_add, show ⌊(1/2 : ℚ)⌋ = 0 by norm_num, add_zero] at hmono
  rw [round2]
  have h' : (n : ℚ) ≤ ((round (100 * x) : ℤ) : ℚ) := by exact_mod_cast hfloor
  gcongr

/-- The `base_prices` lookup table with default `100.0` (main.py lines 183-192). -/
def base_prices (symbol : String) : ℚ :=
  if symbol = "AAPL" then 180
  else if symbol = "MSFT" then 350
  else if symbol = "GOOGL" then 140
  else if symbol = "SPY" then 450
  else if symbol = "QQQ" then 380
  else if symbol = "TSLA" then 200
  else 100

/-- Every base price is positive, and its 70%-floor is a multiple of `1/100`
(every table entry is a multiple of 10), so `round2` cannot round a floored
price below the floor. -/
theorem base_prices_spec (symbol : String) :
    ∃ n : ℤ, 0 < base_prices symbol ∧ (7/10) * base_prices symbol = (n : ℚ) / 100 := by
  unfold base_prices
  split_ifs
  · exact ⟨12600, by norm_num⟩
  · exact ⟨24500, by norm_num⟩
  · exact ⟨9800, by norm_num⟩
  · exact ⟨31500, by norm_num⟩
  · exact ⟨26600, by norm_num⟩
  · exact ⟨14000, by norm_num⟩
  · exact ⟨7000, by norm_num⟩

/-- The random-walk price of day `i` (main.py lines 198-209): day 0 is the base
price; each later day applies the sampled daily change `chg i` and is floored at
70% of the base price. -/
def samplePrice (base : ℚ) (chg : ℕ → ℚ) : ℕ → ℚ
  | 0 => base
  | i + 1 => max (samplePrice base chg i * (1 + chg (i + 1))) (base * (7/10))

theorem samplePrice_ge_floor (base : ℚ) (chg : ℕ → ℚ) (hb : 0 < base) (i : ℕ) :
    (7/10) * base ≤ samplePrice base chg i := by
  cases i with
  | zero => unfold samplePrice; linarith
  | succ j =>
    unfold samplePrice
    calc (7/10) * base = base * (7/10) := by ring
    _ ≤ _ := le_max_right _ _

/-- `create_sample_data` (main.py lines 178-228).  `chg i` is the sampled daily
change of day `i`, `hf i` and `lf i` the high/low perturbation factors, `opn i` the
`uniform(low, high)` draw for the open, and `vol i` the sampled volume; day `i`
carries the calendar date `today - (days - i - 1)`.  The function is total: it
always succeeds and never throws. -/
def create_sample_data (symbol : String) (days : ℕ) (today : ℤ)
    (chg hf lf opn : ℕ → ℚ) (vol : ℕ → ℤ) : List DataRow :=
  (List.range days).map (fun i =>
    { date := today - ((days - i - 1 : ℕ) : ℤ)
      open_ := round2 (opn i)
      high := round2 (samplePrice (base_prices symbol) chg i * hf i)
      low := round2 (samplePrice (base_prices symbol) chg i * lf i)
      close := round2 (samplePrice (base_prices symbol) chg i)
      volume := vol i })

/-- Claim C5: for every symbol, every day count and every outcome of the random
draws, `create_sample_data` succeeds and returns exactly `days` bars with strictly
increasing dates whose closes all stay at or above 70% of the symbol's base price
(table lookup with default `100.0`). -/
theorem create_sample_data_structural (symbol : String) (days : ℕ) (today : ℤ)
    (chg hf lf opn : ℕ → ℚ) (vol : ℕ → ℤ) :
    (create_sample_data symbol days today chg hf lf opn vol).length = days
    ∧ (create_sample_data symbol days today chg hf lf opn vol).Pairwise
        (fun a b => a.date < b.date)
    ∧ ∀ b ∈ create_sample_data symbol days today chg hf lf opn vol,
        (7/10) * base_prices symbol ≤ b.close := by
  obtain ⟨n, hbpos, hbrep⟩ := base_prices_spec symbol
  refine ⟨by simp [create_sample_data], ?_, ?_⟩
  · have h1 : (List.range days).Pairwise (· < ·) := List.pairwise_lt_range days
    have h2 : (List.range days).Pairwise
        (fun i j => today - ((days - i - 1 : ℕ) : ℤ) < today - ((days - j - 1 : ℕ) : ℤ)) := by
      refine h1.imp_of_mem ?_
      intro a b ha hb hab
      have hb' := List.mem_range.mp hb
      omega
    exact h2.map _ (fun a b h => h)
  · intro b hb
    rcases List.mem_map.mp hb with ⟨i, -, rfl⟩
    rw [hbrep]
    exact le_round2 n _ (hbrep ▸ samplePrice_ge_floor _ chg hbpos i)

/-- Key of the in-memory cache: `(symbol, period)` (main.py line 233). -/
abbrev CacheKey := String × String

/-- The process-wide dict `CACHE` (main.py line 49): key to `(data, timestamp)`. -/
abbrev Cache := CacheKey → Option (List DataRow × ℚ)

/-- `CACHE_TTL = 300` seconds (main.py line 50). -/
def CACHE_TTL : ℚ := 300

/-- `CACHE[cache_key] = (data, now)` (main.py lines 288 and 301). -/
def cacheInsert (c : Cache) (k : CacheKey) (v : List DataRow × ℚ) : Cache :=
  fun k' => if k' = k then some v else c k'

/-- `del CACHE[cache_key]` (main.py line 244). -/
def cacheErase (c : Cache) (k : CacheKey) : Cache :=
  fun k' => if k' = k then none else c k'

theorem cacheInsert_apply_self (c : Cache) (k : CacheKey) (v : List DataRow × ℚ) :
    cacheInsert c k v k = some v := by simp [cacheInsert]

theorem cacheInsert_erase (c : Cache) (k : CacheKey) (v : List DataRow × ℚ) :
    cacheInsert (cacheErase c k) k v = cacheInsert c k v := by
  funext k'
  by_cases h : k' = k <;> simp [cacheInsert, cacheErase, h]

/-- The retry loop of `fetch_yfinance_with_retry` (main.py lines 248-293):
`upstream i` is the outcome of yfinance attempt `i` (`none` models a raised and
swallowed exception); a returned history counts as success only when it has at
least 2 bars, otherwise the loop just continues.  The first argument is the next
attempt index, the second the number of attempts left. -/
def attemptsLoop (upstream : ℕ → Option (List DataRow)) : ℕ → ℕ → Option (List DataRow)
  | _, 0 => none
  | i, Nat.succ k =>
    match upstream i with
    | some d => if 2 ≤ d.length then some d else attemptsLoop upstream (i + 1) k
    | none => attemptsLoop upstream (i + 1) k

/-- `days = 30 if period in ["1mo", "7d"] else (180 if period == "6mo" else 365)`
(main.py line 297). -/
def fallbackDays (period : String) : ℕ :=
  if period = "1mo" ∨ period = "7d" then 30 else if period = "6mo" then 180 else 365

/-- Everything `fetch_yfinance_with_retry` does after a cache miss (main.py lines
246-302): run the retry loop; on success store and return the real data, on
exhaustion generate sample data, store it in the cache under the same key too, and
return it.  No upstream error ever escapes: the fallback makes the body total. -/
def fetchBody (cache : Cache) (now : ℚ) (today : ℤ)
    (upstream : ℕ → Option (List DataRow)) (chg hf lf opn : ℕ → ℚ) (vol : ℕ → ℤ)
    (symbol period : String) (max_retries : ℕ) :
    List DataRow × Cache :=
  match attemptsLoop upstream 0 max_retries with
  | some d => (d, cacheInsert cache (symbol, period) (d, now))
  | none =>
    (create_sample_data symbol (fallbackDays period) today chg hf lf opn vol,
     cacheInsert cache (symbol, period)
       (create_sample_data symbol (fallbackDays period) today chg hf lf opn vol, now))

/-- Result of one `fetch_yfinance_with_retry` call: the returned series, the cache
afterwards, and whether the cache-miss body ran at all (`computed = false` means a
pure cache hit: neither the upstream nor the generator was contacted). -/
structure FetchResult where
  data : List DataRow
  cache : Cache
  computed : Bool

/-- `fetch_yfinance_with_retry` (main.py lines 230-302).  A cache hit within
`CACHE_TTL` returns the stored series unchanged; an expired entry is deleted and
the body re-runs; a missing key runs the body. -/
def fetch_yfinance_with_retry (cache : Cache) (now : ℚ) (today : ℤ)
    (upstream : ℕ → Option (List DataRow)) (chg hf lf opn : ℕ → ℚ) (vol : ℕ → ℤ)
    (symbol period : String) (max_retries : ℕ) : FetchResult :=
  match cache (symbol, period) with
  | some (data, ts) =>
    if now - ts < CACHE_TTL then ⟨data, cache, false⟩
    else
      let r := fetchBody (cacheErase cache (symbol, period)) now today upstream
        chg hf lf opn vol symbol period max_retries
      ⟨r.1, r.2, true⟩
  | none =>
    let r := fetchBody cache now today upstream chg hf lf opn vol symbol period max_retries
    ⟨r.1, r.2, true⟩

theorem fetchBody_cache (cache : Cache) (now : ℚ) (today : ℤ)
    (upstream : ℕ → Option (List DataRow)) (chg hf lf opn : ℕ → ℚ) (vol : ℕ → ℤ)
    (symbol period : String) (max_retries : ℕ) :
    ∃ d, fetchBody cache now today upstream chg hf lf opn vol symbol period max_retries
      = (d, cacheInsert cache (symbol, period) (d, now)) := by
  rw [fetchBody]
  cases attemptsLoop upstream 0 max_retries <;> exact ⟨_, rfl⟩

/-- Claim C3: for every key, under any two consecutive calls of the cached fetch
separated by less than the 300-second TTL, the underlying fetch/generate body runs
at most once in total; and whenever the first call did run it (a miss), the second
call is a pure cache hit: it returns the series the first call stored, leaves the
cache untouched and contacts neither the upstream nor the generator. -/
theorem cached_fetch_second_call_hit (c0 : Cache) (t1 t2 : ℚ) (today1 today2 : ℤ)
    (up1 up2 : ℕ → Option (List DataRow)) (chg1 hf1 lf1 opn1 chg2 hf2 lf2 opn2 : ℕ → ℚ)
    (vol1 vol2 : ℕ → ℤ) (symbol period : String) (r1 r2 : FetchResult)
    (hr1 : fetch_yfinance_with_retry c0 t1 today1 up1 chg1 hf1 lf1 opn1 vol1
      symbol period 2 = r1)
    (hr2 : fetch_yfinance_with_retry r1.cache t2 today2 up2 chg2 hf2 lf2 opn2 vol2
      symbol period 2 = r2)
    (h1 : t1 ≤ t2) (h2 : t2 - t1 < 300) :
    ((if r1.computed then 1 else 0) + (if r2.computed then 1 else 0) ≤ 1)
    ∧ (r1.computed = true → r2 = ⟨r1.data, r1.cache, false⟩) := by
  have hit_after_store : ∀ (c : Cache) (d : List DataRow),
      r1.cache = cacheInsert c (symbol, period) (d, t1) → r1.data = d →
      r2 = ⟨r1.data, r1.cache, false⟩ := by
    intro c d hcache hdata
    have httl : t2 - t1 < CACHE_TTL := by
      have : CACHE_TTL = 300 := rfl
      rw [this]; linarith
    simp only [fetch_yfinance_with_retry, hcache, cacheInsert_apply_self] at hr2
    rw [if_pos httl] at hr2
    rw [← hr2, hdata, hcache]
  rcases hc : c0 (symbol, period) with - | ⟨d, ts⟩
  · obtain ⟨d1, hbody⟩ := fetchBody_cache c0 t1 today1 up1 chg1 hf1 lf1 opn1 vol1
      symbol period 2
    simp only [fetch_yfinance_with_retry, hc, hbody] at hr1
    have hcomp1 : r1.computed = true := by rw [← hr1]
    have h2eq : r2 = ⟨r1.data, r1.cache, false⟩ :=
      hit_after_store c0 d1 (by rw [← hr1]) (by rw [← hr1])
    refine ⟨?_, fun _ => h2eq⟩
    rw [hcomp1, h2eq]
    simp
  · by_cases hts : t1 - ts < CACHE_TTL
    · simp only [fetch_yfinance_with_retry, hc] at hr1
      rw [if_pos hts] at hr1
      have hcomp1 : r1.computed = false := by rw [← hr1]
      rw [hcomp1]
      refine ⟨?_, by simp [hcomp1]⟩
      cases hcomp2 : r2.computed <;> simp
    · obtain ⟨d1, hbody⟩ := fetchBody_cache (cacheErase c0 (symbol, period)) t1 today1
        up1 chg1 hf1 lf1 opn1 vol1 symbol period 2
      simp only [fetch_yfinance_with_retry, hc] at hr1
      rw [if_neg hts, hbody] at hr1
      have hcomp1 : r1.computed = true := by rw [← hr1]
      have h2eq : r2 = ⟨r1.data, r1.cache, false⟩ :=
        hit_after_store (cacheErase c0 (symbol, period)) d1 (by rw [← hr1]) (by rw [← hr1])
      refine ⟨?_, fun _ => h2eq⟩
      rw [hcomp1, h2eq]
      simp

/-- First call of the concrete two-call scenario: empty cache, failing upstream. -/
def fetchW1 : FetchResult :=
  fetch_yfinance_with_retry (fun _ => none) 0 0 (fun _ => none)
    (fun _ => 0) (fun _ => 0) (fun _ => 0) (fun _ => 0) (fun _ => 0) "AAPL" "1mo" 2

/-- Second call of the concrete two-call scenario, 100 seconds later. -/
def fetchW2 : FetchResult :=
  fetch_yfinance_with_retry fetchW1.cache 100 0 (fun _ => none)
    (fun _ => 0) (fun _ => 0) (fun _ => 0) (fun _ => 0) (fun _ => 0) "AAPL" "1mo" 2

theorem cached_fetch_second_call_hit_witness :
    ((0:ℚ) ≤ 100 ∧ (100:ℚ) - 0 < 300)
    ∧ (((if fetchW1.computed then 1 else 0) + (if fetchW2.computed then 1 else 0) ≤ 1)
      ∧ (fetchW1.computed = true → fetchW2 = ⟨fetchW1.data, fetchW1.cache, false⟩)) :=
  ⟨⟨by norm_num, by norm_num⟩,
   cached_fetch_second_call_hit (fun _ => none) 0 100 0 0 (fun _ => none) (fun _ => none)
     (fun _ => 0) (fun _ => 0) (fun _ => 0) (fun _ => 0) (fun _ => 0) (fun _ => 0)
     (fun _ => 0) (fun _ => 0) (fun _ => 0) (fun _ => 0) "AAPL" "1mo" fetchW1 fetchW2
     rfl rfl (by norm_num) (by norm_num)⟩

/-- A fetched/generated row tagged with its symbol, as inserted into `prices`
(main.py lines 337-350). -/
def rowOfData (sym : String) (d : DataRow) : PriceRow :=
  ⟨sym, d.date, d.open_, d.high, d.low, d.close, d.volume⟩

/-- Drop the symbol column, as when a `prices` query result is fed to pandas
(main.py line 384). -/
def dataOfRow (r : PriceRow) : DataRow :=
  ⟨r.date, r.open_, r.high, r.low, r.close, r.volume⟩

/-- `INSERT OR REPLACE INTO prices` for one row (main.py lines 338-350): any row
with the same primary key `(symbol, date)` is replaced. -/
def upsertPrice (db : List PriceRow) (r : PriceRow) : List PriceRow :=
  db.filter (fun x => !(x.symbol == r.symbol && x.date == r.date)) ++ [r]

/-- `DELETE FROM prices WHERE symbol = ?` (main.py line 334). -/
def deleteSymbol (db : List PriceRow) (sym : String) : List PriceRow :=
  db.filter (fun x => !(x.symbol == sym))

/-- The insert loop of `get_prices` (main.py lines 337-350). -/
def insertPriceData (db : List PriceRow) (sym : String) (rows : List DataRow) : List PriceRow :=
  rows.foldl (fun d r => upsertPrice d (rowOfData sym r)) db

/-- The delete-then-insert sequence of `get_prices` (main.py lines 334-350) — the
spec's `PersistentStore.replaceSeries`. -/
def replaceSeries (db : List PriceRow) (sym : String) (rows : List DataRow) : List PriceRow :=
  insertPriceData (deleteSymbol db sym) sym rows

/-- `SELECT ... FROM prices WHERE symbol = ? AND date >= ? ORDER BY date`
(main.py lines 370-375) — the spec's `PersistentStore.windowed`. -/
def windowedQuery (db : List PriceRow) (sym : String) (since : ℤ) : List PriceRow :=
  sortByKey (fun r => r.date)
    (db.filter (fun r => r.symbol == sym && decide (since ≤ r.date)))

theorem insertPriceData_eq_append (base : List PriceRow) (sym : String)
    (rows : List DataRow) (hnd : (rows.map (fun r => r.date)).Nodup)
    (hbase : ∀ x ∈ base, x.symbol = sym → x.date ∉ rows.map (fun r => r.date)) :
    insertPriceData base sym rows = base ++ rows.map (rowOfData sym) := by
  induction rows generalizing base with
  | nil => simp [insertPriceData]
  | cons r rs ih =>
    have hup : upsertPrice base (rowOfData sym r) = base ++ [rowOfData sym r] := by
      rw [upsertPrice]
      congr 1
      rw [List.filter_eq_self]
      intro x hx
      simp only [Bool.not_eq_eq_eq_not, Bool.not_true, Bool.and_eq_false_imp,
        beq_iff_eq, Bool.not_eq_true', beq_eq_false_iff_ne, ne_eq, rowOfData]
      intro hsym hdate
      exact hbase x hx hsym (by simp [hdate])
    have hstep : insertPriceData base sym (r :: rs)
        = insertPriceData (base ++ [rowOfData sym r]) sym rs := by
      rw [insertPriceData, List.foldl_cons, ← hup]
      rfl
    rw [hstep, ih (base ++ [rowOfData sym r]) (by simpa using hnd.of_cons) ?_]
    · simp
    · intro x hx hxsym
      rcases List.mem_append.mp hx with hx' | hx'
      · intro hmem
        exact hbase x hx' hxsym (List.mem_cons_of_mem _ hmem)
      · have hx'' : x = rowOfData sym r := by simpa using hx'
        subst hx''
        simp only [rowOfData]
        intro hmem
        rcases List.mem_map.mp hmem with ⟨b, hb, hbd⟩
        have hnd' : (∀ x ∈ rs, ¬ x.date = r.date)
            ∧ (List.map (fun r => r.date) rs).Nodup := by simpa using hnd
        exact hnd'.1 b hb hbd

/-- Claim C6: for any prior state of the `prices` table and any series with
pairwise-distinct dates, a `replaceSeries` followed by a `windowed` query whose
`sinceDate` precedes every bar returns exactly the inserted series — a permutation
of it, in strictly ascending date order, with no bar of any earlier state
surviving; if the series was already date-sorted it is returned verbatim. -/
theorem replace_then_windowed (db : List PriceRow) (sym : String)
    (series : List DataRow) (since : ℤ)
    (hnd : (series.map (fun r => r.date)).Nodup)
    (hsince : ∀ b ∈ series, since ≤ b.date) :
    (windowedQuery (replaceSeries db sym series) sym since).Perm
      (series.map (rowOfData sym))
    ∧ (windowedQuery (replaceSeries db sym series) sym since).Pairwise
        (fun a b => a.date < b.date)
    ∧ ((series.Pairwise fun a b => a.date ≤ b.date) →
        windowedQuery (replaceSeries db sym series) sym since
          = series.map (rowOfData sym)) := by
  have hdel : ∀ x ∈ deleteSymbol db sym, ¬ x.symbol = sym := by
    intro x hx
    have := (List.mem_filter.mp hx).2
    simpa using this
  have hrepl : replaceSeries db sym series
      = deleteSymbol db sym ++ series.map (rowOfData sym) := by
    rw [replaceSeries]
    exact insertPriceData_eq_append _ sym series hnd
      (fun x hx hxs => absurd hxs (hdel x hx))
  have hfilter : (replaceSeries db sym series).filter
      (fun r => r.symbol == sym && decide (since ≤ r.date))
      = series.map (rowOfData sym) := by
    rw [hrepl, List.filter_append]
    have h1 : (deleteSymbol db sym).filter
        (fun r => r.symbol == sym && decide (since ≤ r.date)) = [] := by
      rw [List.filter_eq_nil_iff]
      intro x hx
      simp [hdel x hx]
    have h2 : (series.map (rowOfData sym)).filter
        (fun r => r.symbol == sym && decide (since ≤ r.date))
        = series.map (rowOfData sym) := by
      rw [List.filter_eq_self]
      intro x hx
      rcases List.mem_map.mp hx with ⟨b, hb, rfl⟩
      simp [rowOfData, hsince b hb]
    rw [h1, h2, List.nil_append]
  have hwq : windowedQuery (replaceSeries db sym series) sym since
      = sortByKey (fun r => r.date) (series.map (rowOfData sym)) := by
    rw [windowedQuery, hfilter]
  have hperm : (windowedQuery (replaceSeries db sym series) sym since).Perm
      (series.map (rowOfData sym)) := by
    rw [hwq]; exact sortByKey_perm _ _
  have hle : (windowedQuery (replaceSeries db sym series) sym since).Pairwise
      (fun a b => a.date ≤ b.date) := by
    rw [hwq]; exact sortByKey_pairwise _ _
  have hnodup : ((windowedQuery (replaceSeries db sym series) sym since).map
      (fun r => r.date)).Nodup := by
    refine (hperm.map (fun r => r.date)).nodup_iff.mpr ?_
    have : (series.map (rowOfData sym)).map (fun r : PriceRow => r.date)
        = series.map (fun r => r.date) := by
      simp [rowOfData, Function.comp]
    rw [this]
    exact hnd
  refine ⟨hperm, ?_, ?_⟩
  · have hne : (windowedQuery (replaceSeries db sym series) sym since).Pairwise
        (fun a b => ¬ a.date = b.date) := List.pairwise_map.mp hnodup
    exact (hle.and hne).imp (fun h => lt_of_le_of_ne h.1 h.2)
  · intro hsorted
    rw [hwq]
    exact sortByKey_eq_self _ _ (List.pairwise_map.mpr
      (hsorted.imp (fun h => by simpa [rowOfData] using h)))

theorem replace_then_windowed_witness :
    (([bar 0 100, bar 1 110].map (fun r => r.date)).Nodup
      ∧ ∀ b ∈ [bar 0 100, bar 1 110], (-5 : ℤ) ≤ b.date)
    ∧ ((windowedQuery (replaceSeries [] "AAPL" [bar 0 100, bar 1 110]) "AAPL" (-5)).Perm
        ([bar 0 100, bar 1 110].map (rowOfData "AAPL"))
      ∧ (windowedQuery (replaceSeries [] "AAPL" [bar 0 100, bar 1 110]) "AAPL" (-5)).Pairwise
          (fun a b => a.date < b.date)
      ∧ (([bar 0 100, bar 1 110].Pairwise fun a b => a.date ≤ b.date) →
          windowedQuery (replaceSeries [] "AAPL" [bar 0 100, bar 1 110]) "AAPL" (-5)
            = [bar 0 100, bar 1 110].map (rowOfData "AAPL"))) :=
  ⟨⟨by decide, by decide⟩,
   replace_then_windowed [] "AAPL" [bar 0 100, bar 1 110] (-5) (by decide) (by decide)⟩

/-- The `TimeRange` str-enum (main.py lines 74-78). -/
inductive TimeRange
  | seven_days
  | one_month
  | six_months
  | one_year
deriving DecidableEq, Repr

/-- The `.value` of the str-enum member. -/
def TimeRange.val : TimeRange → String
  | .seven_days => "7d"
  | .one_month => "1mo"
  | .six_months => "6mo"
  | .one_year => "1y"

/-- `yf_range_to_period` (main.py lines 132-140): identity on the four known
range strings, default `"1mo"` otherwise. -/
def yf_range_to_period (range_str : String) : String :=
  if range_str = "7d" ∨ range_str = "1mo" ∨ range_str = "6mo" ∨ range_str = "1y"
  then range_str else "1mo"

/-- Window size in calendar days (main.py lines 360-368). -/
def rangeDays : TimeRange → ℕ
  | .seven_days => 7
  | .one_month => 30
  | .six_months => 180
  | .one_year => 365

/-- The failure outcomes of `get_prices`: the HTTP 500 of the except-branch
(main.py lines 355-357) and the HTTP 404 for an empty window (main.py lines
380-381).  In the embedding the fetch and the table operations are total, so the
500 branch is unreachable and only `notFound` is ever produced. -/
inductive GpError
  | serverError : String → GpError
  | notFound : String → GpError

/-- The success payload of `get_prices` (main.py lines 402-414).  The JSON layer
additionally scales the percentage fields by 100 and rounds them for display;
since the displayed volatility involves `√252`, that presentation-only map is kept
outside the embedding and the response carries the exact snapshot. -/
structure PricesResponse where
  symbol : String
  range : String
  data : List DataRow
  metrics : Metrics

/-- Result of one `get_prices` request: the HTTP outcome, the `prices` table and
the ephemeral cache afterwards, and whether the fetch body ran at all. -/
structure GpResult where
  response : Except GpError PricesResponse
  db : List PriceRow
  cache : Cache
  fetched : Bool

/-- `get_prices` (main.py lines 307-414): normalize the symbol, check whether any
stored bar is dated within the last calendar day (`date >= DATE('now','-1 day')`),
on staleness fetch (through the cache, with synthetic fallback) and replace the
symbol's rows, then answer from a windowed query over the stored rows, computing
the metrics over exactly the returned window; an empty window is a 404. -/
def get_prices (db : List PriceRow) (cache : Cache) (today : ℤ) (now : ℚ)
    (upstream : ℕ → Option (List DataRow)) (chg hf lf opn : ℕ → ℚ) (vol : ℕ → ℤ)
    (symbol : String) (range : TimeRange) : GpResult :=
  let sym := symbol.toUpper.trim
  let hasRecent := db.any (fun r => r.symbol == sym && decide (today - 1 ≤ r.date))
  let st :=
    if hasRecent then (db, cache, false)
    else
      let fr := fetch_yfinance_with_retry cache now today upstream chg hf lf opn vol sym
        (yf_range_to_period range.val) 2
      (replaceSeries db sym fr.data, fr.cache, fr.computed)
  let rows := windowedQuery st.1 sym (today - (rangeDays range : ℤ))
  if rows.isEmpty then
    ⟨.error (.notFound "No data available"), st.1, st.2.1, st.2.2⟩
  else
    ⟨.ok ⟨sym, range.val, rows.map dataOfRow, calculate_metrics (rows.map dataOfRow)⟩,
     st.1, st.2.1, st.2.2⟩

/-- Claim C9: when the store already holds a bar for the normalized symbol dated
within the last calendar day, `get_prices` performs no cache lookup, no upstream
fetch and no synthetic generation, leaves the `prices` table and the cache
completely unchanged, and answers purely from the already-stored rows of the
requested window. -/
theorem fresh_skips_fetch (db : List PriceRow) (cache : Cache) (today : ℤ) (now : ℚ)
    (upstream : ℕ → Option (List DataRow)) (chg hf lf opn : ℕ → ℚ) (vol : ℕ → ℤ)
    (symbol : String) (range : TimeRange)
    (hfresh : ∃ r ∈ db, r.symbol = symbol.toUpper.trim ∧ today - 1 ≤ r.date) :
    get_prices db cache today now upstream chg hf lf opn vol symbol range
      = ⟨.ok ⟨symbol.toUpper.trim, range.val,
            (windowedQuery db (symbol.toUpper.trim) (today - (rangeDays range : ℤ))).map
              dataOfRow,
            calculate_metrics
              ((windowedQuery db (symbol.toUpper.trim) (today - (rangeDays range : ℤ))).map
                dataOfRow)⟩,
          db, cache, false⟩ := by
  obtain ⟨r, hr, hrs, hrd⟩ := hfresh
  have hany : db.any (fun x => x.symbol == symbol.toUpper.trim
      && decide (today - 1 ≤ x.date)) = true :=
    List.any_eq_true.mpr ⟨r, hr, by simp [hrs, hrd]⟩
  have hdays : (1 : ℤ) ≤ (rangeDays range : ℤ) := by
    cases range <;> simp [rangeDays]
  have hcond : (r.symbol == symbol.toUpper.trim
      && decide (today - (rangeDays range : ℤ) ≤ r.date)) = true := by
    simp only [Bool.and_eq_true, beq_iff_eq, decide_eq_true_eq]
    exact ⟨hrs, by omega⟩
  have hrwin : r ∈ db.filter (fun x => x.symbol == symbol.toUpper.trim
      && decide (today - (rangeDays range : ℤ) ≤ x.date)) :=
    List.mem_filter.mpr ⟨hr, hcond⟩
  have hne : windowedQuery db (symbol.toUpper.trim) (today - (rangeDays range : ℤ)) ≠ [] :=
    List.ne_nil_of_mem ((sortByKey_perm _ _).mem_iff.mpr hrwin)
  have hemp : (windowedQuery db (symbol.toUpper.trim)
      (today - (rangeDays range : ℤ))).isEmpty = false := by
    cases hW : windowedQuery db (symbol.toUpper.trim) (today - (rangeDays range : ℤ)) with
    | nil => exact absurd hW hne
    | cons a l => rfl
  have hex : ∃ x ∈ db, x.symbol = symbol.toUpper.trim ∧ today ≤ x.date + 1 :=
    ⟨r, hr, hrs, by omega⟩
  simp [get_prices, hany, hemp, hex, hne]

/-- A one-row `prices` table holding a bar for the normalized symbol dated today. -/
def dbW9 : List PriceRow := [⟨"AAPL".toUpper.trim, 10, 0, 0, 0, 0, 0⟩]

theorem fresh_skips_fetch_witness :
    (∃ r ∈ dbW9, r.symbol = "AAPL".toUpper.trim ∧ (10 : ℤ) - 1 ≤ r.date)
    ∧ get_prices dbW9 (fun _ => none) 10 0 (fun _ => none) (fun _ => 0) (fun _ => 0)
        (fun _ => 0) (fun _ => 0) (fun _ => 0) "AAPL" TimeRange.one_month
      = ⟨.ok ⟨"AAPL".toUpper.trim, TimeRange.one_month.val,
            (windowedQuery dbW9 ("AAPL".toUpper.trim)
              (10 - (rangeDays TimeRange.one_month : ℤ))).map dataOfRow,
            calculate_metrics
              ((windowedQuery dbW9 ("AAPL".toUpper.trim)
                (10 - (rangeDays TimeRange.one_month : ℤ))).map dataOfRow)⟩,
          dbW9, (fun _ => none), false⟩ :=
  ⟨⟨⟨"AAPL".toUpper.trim, 10, 0, 0, 0, 0, 0⟩, by simp [dbW9], rfl, by norm_num⟩,
   fresh_skips_fetch dbW9 (fun _ => none) 10 0 (fun _ => none) (fun _ => 0) (fun _ => 0)
     (fun _ => 0) (fun _ => 0) (fun _ => 0) "AAPL" TimeRange.one_month
     ⟨⟨"AAPL".toUpper.trim, 10, 0, 0, 0, 0, 0⟩, by simp [dbW9], rfl, by norm_num⟩⟩

theorem attemptsLoop_none (upstream : ℕ → Option (List DataRow))
    (hup : ∀ i, upstream i = none) : ∀ s k, attemptsLoop upstream s k = none := by
  intro s k
  induction k generalizing s with
  | zero => rfl
  | succ k ih => simp [attemptsLoop, hup s, ih]

theorem create_sample_data_length (symbol : String) (days : ℕ) (today : ℤ)
    (chg hf lf opn : ℕ → ℚ) (vol : ℕ → ℤ) :
    (create_sample_data symbol days today chg hf lf opn vol).length = days := by
  simp [create_sample_data]

theorem create_sample_data_date_lb (symbol : String) (days : ℕ) (today : ℤ)
    (chg hf lf opn : ℕ → ℚ) (vol : ℕ → ℤ) :
    ∀ b ∈ create_sample_data symbol days today chg hf lf opn vol,
      today - days < b.date := by
  intro b hb
  rcases List.mem_map.mp hb with ⟨i, hi, rfl⟩
  have := List.mem_range.mp hi
  simp only
  omega

theorem create_sample_data_dates_nodup (symbol : String) (days : ℕ) (today : ℤ)
    (chg hf lf opn : ℕ → ℚ) (vol : ℕ → ℤ) :
    ((create_sample_data symbol days today chg hf lf opn vol).map
      (fun r => r.date)).Nodup :=
  List.pairwise_map.mpr
    (((create_sample_data_structural symbol days today chg hf lf opn vol).2.1).imp
      (fun h => ne_of_lt h))

/-- Claim C1: with no cached entry for the normalized symbol and an upstream that
fails on every attempt, the fetch never raises: it returns the synthetic series of
`create_sample_data` (30 bars for periods `1mo`/`7d`, 180 for `6mo`, 365 for `1y`)
and stores that fallback under the same `(symbol, period)` cache key; and the
end-to-end `1mo` request for a symbol with no stored rows succeeds with the 30-bar
synthetic series and metrics computed over it — never a 500 and never a 404. -/
theorem fetch_fallback_end_to_end (db : List PriceRow) (cache : Cache) (today : ℤ)
    (now : ℚ) (upstream : ℕ → Option (List DataRow)) (chg hf lf opn : ℕ → ℚ)
    (vol : ℕ → ℤ) (symbol : String)
    (hup : ∀ i, upstream i = none)
    (hdb : ∀ r ∈ db, ¬ r.symbol = symbol.toUpper.trim)
    (hcache : ∀ period, cache (symbol.toUpper.trim, period) = none) :
    (∀ period, fetch_yfinance_with_retry cache now today upstream chg hf lf opn vol
        (symbol.toUpper.trim) period 2
      = ⟨create_sample_data (symbol.toUpper.trim) (fallbackDays period) today
           chg hf lf opn vol,
         cacheInsert cache (symbol.toUpper.trim, period)
           (create_sample_data (symbol.toUpper.trim) (fallbackDays period) today
             chg hf lf opn vol, now),
         true⟩)
    ∧ fallbackDays "1mo" = 30 ∧ fallbackDays "7d" = 30
    ∧ fallbackDays "6mo" = 180 ∧ fallbackDays "1y" = 365
    ∧ (create_sample_data (symbol.toUpper.trim) 30 today chg hf lf opn vol).length = 30
    ∧ get_prices db cache today now upstream chg hf lf opn vol symbol TimeRange.one_month
      = ⟨.ok ⟨symbol.toUpper.trim, "1mo",
            create_sample_data (symbol.toUpper.trim) 30 today chg hf lf opn vol,
            calculate_metrics
              (create_sample_data (symbol.toUpper.trim) 30 today chg hf lf opn vol)⟩,
          replaceSeries db (symbol.toUpper.trim)
            (create_sample_data (symbol.toUpper.trim) 30 today chg hf lf opn vol),
          cacheInsert cache (symbol.toUpper.trim, "1mo")
            (create_sample_data (symbol.toUpper.trim) 30 today chg hf lf opn vol, now),
          true⟩ := by
  have hfetch : ∀ period, fetch_yfinance_with_retry cache now today upstream chg hf lf
      opn vol (symbol.toUpper.trim) period 2
      = ⟨create_sample_data (symbol.toUpper.trim) (fallbackDays period) today
           chg hf lf opn vol,
         cacheInsert cache (symbol.toUpper.trim, period)
           (create_sample_data (symbol.toUpper.trim) (fallbackDays period) today
             chg hf lf opn vol, now),
         true⟩ := by
    intro period
    simp only [fetch_yfinance_with_retry, hcache period, fetchBody,
      attemptsLoop_none upstream hup 0 2]
  refine ⟨hfetch, rfl, rfl, rfl, rfl, create_sample_data_length _ _ _ _ _ _ _ _, ?_⟩
  have hsynth30 : fallbackDays (yf_range_to_period TimeRange.one_month.val) = 30 := rfl
  have hnotfresh : ¬ ∃ x ∈ db, x.symbol = symbol.toUpper.trim ∧ today ≤ x.date + 1 := by
    rintro ⟨x, hx, hxs, -⟩
    exact hdb x hx hxs
  have hdel : ∀ x ∈ deleteSymbol db (symbol.toUpper.trim),
      ¬ x.symbol = symbol.toUpper.trim := by
    intro x hx
    have := (List.mem_filter.mp hx).2
    simpa using this
  have hrepl : replaceSeries db (symbol.toUpper.trim)
      (create_sample_data (symbol.toUpper.trim) 30 today chg hf lf opn vol)
      = deleteSymbol db (symbol.toUpper.trim)
        ++ (create_sample_data (symbol.toUpper.trim) 30 today chg hf lf opn vol).map
             (rowOfData (symbol.toUpper.trim)) := by
    rw [replaceSeries]
    exact insertPriceData_eq_append _ _ _
      (create_sample_data_dates_nodup _ _ _ _ _ _ _ _)
      (fun x hx hxs => absurd hxs (hdel x hx))
  have hwq : windowedQuery (replaceSeries db (symbol.toUpper.trim)
        (create_sample_data (symbol.toUpper.trim) 30 today chg hf lf opn vol))
        (symbol.toUpper.trim) (today - (rangeDays TimeRange.one_month : ℤ))
      = (create_sample_data (symbol.toUpper.trim) 30 today chg hf lf opn vol).map
          (rowOfData (symbol.toUpper.trim)) := by
    rw [windowedQuery, hrepl, List.filter_append]
    have h1 : (deleteSymbol db (symbol.toUpper.trim)).filter
        (fun r => r.symbol == symbol.toUpper.trim
          && decide (today - (rangeDays TimeRange.one_month : ℤ) ≤ r.date)) = [] := by
      rw [List.filter_eq_nil_iff]
      intro x hx
      simp [hdel x hx]
    have h2 : ((create_sample_data (symbol.toUpper.trim) 30 today chg hf lf opn
        vol).map (rowOfData (symbol.toUpper.trim))).filter
        (fun r => r.symbol == symbol.toUpper.trim
          && decide (today - (rangeDays TimeRange.one_month : ℤ) ≤ r.date))
        = (create_sample_data (symbol.toUpper.trim) 30 today chg hf lf opn vol).map
            (rowOfData (symbol.toUpper.trim)) := by
      rw [List.filter_eq_self]
      intro x hx
      rcases List.mem_map.mp hx with ⟨b, hb, rfl⟩
      have hlb := create_sample_data_date_lb (symbol.toUpper.trim) 30 today
        chg hf lf opn vol b hb
      simp only [rowOfData, Bool.and_eq_true, beq_iff_eq, decide_eq_true_eq]
      have : (rangeDays TimeRange.one_month : ℤ) = 30 := rfl
      exact ⟨by trivial, by omega⟩
    rw [h1, h2, List.nil_append]
    exact sortByKey_eq_self _ _ (List.pairwise_map.mpr
      (((create_sample_data_structural (symbol.toUpper.trim) 30 today
        chg hf lf opn vol).2.1).imp (fun h => le_of_lt h)))
  have hne : windowedQuery (replaceSeries db (symbol.toUpper.trim)
        (create_sample_data (symbol.toUpper.trim) 30 today chg hf lf opn vol))
        (symbol.toUpper.trim) (today - (rangeDays TimeRange.one_month : ℤ)) ≠ [] := by
    rw [hwq]
    intro hnil
    have := congrArg List.length hnil
    simp [create_sample_data_length] at this
  have hmapid : ((create_sample_data (symbol.toUpper.trim) 30 today chg hf lf opn
      vol).map (rowOfData (symbol.toUpper.trim))).map dataOfRow
      = create_sample_data (symbol.toUpper.trim) 30 today chg hf lf opn vol := by
    rw [List.map_map]
    have hcomp : dataOfRow ∘ rowOfData (symbol.toUpper.trim) = id := funext fun b => rfl
    rw [hcomp, List.map_id]
  have hper : yf_range_to_period TimeRange.one_month.val = "1mo" := rfl
  have hfd : fallbackDays "1mo" = 30 := rfl
  simp only [get_prices, hper, hfetch "1mo", hfd]
  simp [hwq, hne, hmapid, hnotfresh]
  have hsne : create_sample_data (symbol.toUpper.trim) 30 today chg hf lf opn vol ≠ [] := by
    intro hnil
    have := congrArg List.length hnil
    simp [create_sample_data_length] at this
  rw [if_neg hsne]
  rfl

/-- The synthetic series of the concrete fallback scenario (all draws zero). -/
def synthW (period : String) : List DataRow :=
  create_sample_data ("AAPL".toUpper.trim) (fallbackDays period) 0
    (fun _ => 0) (fun _ => 0) (fun _ => 0) (fun _ => 0) (fun _ => 0)

theorem fetch_fallback_end_to_end_witness :
    ((∀ i : ℕ, (fun _ : ℕ => (none : Option (List DataRow))) i = none)
      ∧ (∀ r ∈ ([] : List PriceRow), ¬ r.symbol = "AAPL".toUpper.trim)
      ∧ (∀ period : String, (fun _ : CacheKey => (none : Option (List DataRow × ℚ)))
          ("AAPL".toUpper.trim, period) = none))
    ∧ ((∀ period : String, fetch_yfinance_with_retry (fun _ => none) 0 0 (fun _ => none)
          (fun _ => 0) (fun _ => 0) (fun _ => 0) (fun _ => 0) (fun _ => 0)
          ("AAPL".toUpper.trim) period 2
        = ⟨synthW period,
           cacheInsert (fun _ => none) ("AAPL".toUpper.trim, period) (synthW period, 0),
           true⟩)
      ∧ fallbackDays "1mo" = 30 ∧ fallbackDays "7d" = 30
      ∧ fallbackDays "6mo" = 180 ∧ fallbackDays "1y" = 365
      ∧ (synthW "1mo").length = 30
      ∧ get_prices [] (fun _ => none) 0 0 (fun _ => none) (fun _ => 0) (fun _ => 0)
          (fun _ => 0) (fun _ => 0) (fun _ => 0) "AAPL" TimeRange.one_month
        = ⟨.ok ⟨"AAPL".toUpper.trim, "1mo", synthW "1mo",
              calculate_metrics (synthW "1mo")⟩,
           replaceSeries [] ("AAPL".toUpper.trim) (synthW "1mo"),
           cacheInsert (fun _ => none) ("AAPL".toUpper.trim, "1mo") (synthW "1mo", 0),
           true⟩) :=
  ⟨⟨fun _ => rfl, by simp, fun _ => rfl⟩,
   fetch_fallback_end_to_end [] (fun _ => none) 0 0 (fun _ => none) (fun _ => 0)
     (fun _ => 0) (fun _ => 0) (fun _ => 0) (fun _ => 0) "AAPL"
     (fun _ => rfl) (by simp) (fun _ => rfl)⟩

/-- A row of the sqlite `summaries` table (primary key `(symbol, as_of, horizon)`),
main.py lines 107-115. -/
structure SummaryRow where
  symbol : String
  as_of : ℤ
  text : String
  horizon : String
deriving DecidableEq, Repr

/-- `SELECT text FROM summaries WHERE symbol = ? AND as_of = ? AND horizon = ?`
with `fetchone` (main.py lines 428-433). -/
def getSummary (db : List SummaryRow) (sym : String) (asOf : ℤ)
    (horizon : String) : Option String :=
  ((db.filter (fun r => r.symbol == sym && r.as_of == asOf
    && r.horizon == horizon)).head?).map (fun r => r.text)

/-- `INSERT OR REPLACE INTO summaries` (main.py lines 451-454): the row with the
same natural key, if any, is replaced. -/
def putSummary (db : List SummaryRow) (sym : String) (asOf : ℤ)
    (text horizon : String) : List SummaryRow :=
  db.filter (fun r => !(r.symbol == sym && r.as_of == asOf && r.horizon == horizon))
    ++ [⟨sym, asOf, text, horizon⟩]

/-- `generate_summary` (main.py lines 416-459): answer from the summaries cache
when an artifact for `(symbol.upper(), today, range)` exists; otherwise obtain the
price data and format a new summary — modelled by the parameter `fresh`, the
composite outcome of `get_prices` plus `generate_mock_summary` (`none` when
`get_prices` raises, surfaced as the 400 branch) — store it under the natural key
and return it uncached. -/
def generate_summary (sdb : List SummaryRow) (today : ℤ) (symbol range_val : String)
    (fresh : Option String) : (Except String (String × Bool)) × List SummaryRow :=
  match getSummary sdb (symbol.toUpper) today range_val with
  | some t => (.ok (t, true), sdb)
  | none =>
    match fresh with
    | none => (.error "Could not fetch price data", sdb)
    | some s => (.ok (s, false), putSummary sdb (symbol.toUpper) today s range_val)

theorem filter_not_filter {α : Type} (p : α → Bool) (l : List α) :
    (l.filter (fun a => !(p a))).filter p = [] := by
  rw [List.filter_eq_nil_iff]
  intro a ha
  have := (List.mem_filter.mp ha).2
  simp_all

theorem getSummary_put_same (db : List SummaryRow) (sym : String) (asOf : ℤ)
    (t h : String) : getSummary (putSummary db sym asOf t h) sym asOf h = some t := by
  unfold getSummary putSummary
  rw [List.filter_append, filter_not_filter]
  simp

/-- Claim C8: a stored `SummaryArtifact` is returned verbatim when queried by the
same `(symbol, asOf, horizon)` key; the same symbol and day under a different
horizon finds no cached artifact; and a second summary request for the same key
returns the stored artifact marked cached, leaves the table unchanged and does not
regenerate (its result does not depend on what a regeneration would produce). -/
theorem summary_roundtrip (db sdb : List SummaryRow) (sym : String) (asOf today : ℤ)
    (h h' t s symbol range_val : String)
    (hne : h' ≠ h)
    (habsent : getSummary db sym asOf h' = none)
    (hmiss : getSummary sdb (symbol.toUpper) today range_val = none) :
    getSummary (putSummary db sym asOf t h) sym asOf h = some t
    ∧ getSummary (putSummary db sym asOf t h) sym asOf h' = none
    ∧ generate_summary sdb today symbol range_val (some s)
        = (.ok (s, false), putSummary sdb (symbol.toUpper) today s range_val)
    ∧ ∀ fresh2, generate_summary (putSummary sdb (symbol.toUpper) today s range_val)
        today symbol range_val fresh2
      = (.ok (s, true), putSummary sdb (symbol.toUpper) today s range_val) := by
  have hfilter_empty : db.filter (fun r => r.symbol == sym && r.as_of == asOf
      && r.horizon == h') = [] := by
    unfold getSummary at habsent
    rcases hF : db.filter (fun r => r.symbol == sym && r.as_of == asOf
      && r.horizon == h') with - | ⟨a, l⟩
    · exact hF
    · rw [hF] at habsent
      simp at habsent
  refine ⟨getSummary_put_same db sym asOf t h, ?_, ?_, ?_⟩
  · unfold getSummary putSummary
    rw [List.filter_append]
    have h1 : (db.filter (fun r => !(r.symbol == sym && r.as_of == asOf
        && r.horizon == h))).filter (fun r => r.symbol == sym && r.as_of == asOf
        && r.horizon == h') = [] := by
      rw [List.filter_eq_nil_iff]
      intro a ha hpa
      have hmem : a ∈ db.filter (fun r => r.symbol == sym && r.as_of == asOf
          && r.horizon == h') :=
        List.mem_filter.mpr ⟨(List.mem_filter.mp ha).1, hpa⟩
      rw [hfilter_empty] at hmem
      exact List.not_mem_nil a hmem
    have h2 : ([(⟨sym, asOf, t, h⟩ : SummaryRow)]).filter
        (fun r => r.symbol == sym && r.as_of == asOf && r.horizon == h') = [] := by
      simp [Ne.symm hne]
    rw [h1, h2]
    rfl
  · simp only [generate_summary, hmiss]
  · intro fresh2
    simp only [generate_summary,
      getSummary_put_same sdb (symbol.toUpper) today s range_val]

theorem summary_roundtrip_witness :
    (("7d" : String) ≠ "1mo"
      ∧ getSummary [] "AAPL" 0 "7d" = none
      ∧ getSummary [] ("aapl".toUpper) 0 "1mo" = none)
    ∧ (getSummary (putSummary [] "AAPL" 0 "cached text" "1mo") "AAPL" 0 "1mo"
        = some "cached text"
      ∧ getSummary (putSummary [] "AAPL" 0 "cached text" "1mo") "AAPL" 0 "7d" = none
      ∧ generate_summary [] 0 "aapl" "1mo" (some "new text")
          = (.ok ("new text", false), putSummary [] ("aapl".toUpper) 0 "new text" "1mo")
      ∧ ∀ fresh2, generate_summary (putSummary [] ("aapl".toUpper) 0 "new text" "1mo")
          0 "aapl" "1mo" fresh2
        = (.ok ("new text", true), putSummary [] ("aapl".toUpper) 0 "new text" "1mo")) :=
  ⟨⟨by decide, rfl, rfl⟩,
   summary_roundtrip [] [] "AAPL" 0 0 "1mo" "7d" "cached text" "new text" "aapl" "1mo"
     (by decide) rfl rfl⟩
